import Mathlib

/-!
Formal model of the plant-monitoring backend (src/backend of this repository).

The embedding is shallow: SQLAlchemy tables become lists of records, SQL
queries become list filters/folds, and the FastAPI handlers become total Lean
functions from a database state to an `Except` result.  Python floats are
idealised as exact rationals (`ℚ`) — and, for the trigonometric value
generator, as reals (`ℝ`) — and Python `round(x, 2)` is idealised as
`round2` below (half-integer tie behaviour aside, which no claim touches).
Timestamps are seconds as integers; `datetime` ordering is integer ordering.
The process-wide random source (`random.gauss`) is modelled as an explicit
oracle parameter: a function giving the generated value of each
(asset, metric) call of a tick, so theorems quantify over every possible
sequence of samples.
-/

namespace PlantMonitor

/-- One row of the `sensor_readings` table (models.py, `SensorReading`):
id, asset FK, metric name, float value, unit, timestamp.  `rid` is the
storage-assigned primary key; the generators leave it 0 as a placeholder
since no query in the service reads it. -/
structure SensorReading where
  rid : Nat
  asset_id : Nat
  metric_name : String
  value : ℚ
  unit : String
  timestamp : Int
deriving DecidableEq

/-- One row of the `assets` table (models.py, `Asset`).  `status` is an
unconstrained string column; the comment in the source documents the intended
enum operational | warning | critical | offline but nothing enforces it. -/
structure Asset where
  id : Nat
  facility_id : Nat
  name : String
  asset_type : String
  status : String
deriving DecidableEq

/-- One row of the `facilities` table (models.py, `Facility`). -/
structure Facility where
  id : Nat
  name : String
  location : String
  facility_type : String
  description : String
deriving DecidableEq

/-- The mutable storage state: the three tables. -/
structure DB where
  facilities : List Facility
  assets : List Asset
  readings : List SensorReading
deriving DecidableEq

/-- The error taxonomy of the handlers: HTTP 404 (`HTTPException(404)`)
and HTTP 422 (FastAPI `Query` bound validation). -/
inductive ApiError where
  | notFound
  | invalidInput
deriving DecidableEq

/-- One entry of a `METRIC_PROFILES` list (init_db.py):
(metric_name, unit, base_value, noise_amp). -/
structure MetricDef where
  name : String
  unit : String
  base : ℚ
  noise : ℚ
deriving DecidableEq

/-- The signal model `METRIC_PROFILES` of init_db.py: asset category →
ordered metric definitions.  Categories absent from the table yield `[]`,
matching `METRIC_PROFILES.get(asset_type, [])` at both call sites. -/
def METRIC_PROFILES : String → List MetricDef
  | "Turbine" =>
      [⟨"temperature", "°C", 540, 15⟩, ⟨"pressure", "bar", 35, 2⟩,
       ⟨"power_output", "MW", 260, 20⟩, ⟨"vibration", "mm/s", 2.5, 0.8⟩,
       ⟨"rpm", "RPM", 3600, 30⟩]
  | "Boiler" =>
      [⟨"temperature", "°C", 480, 20⟩, ⟨"pressure", "bar", 80, 5⟩,
       ⟨"steam_flow", "tons/hr", 320, 25⟩, ⟨"efficiency", "%", 92, 3⟩]
  | "Cooling System" =>
      [⟨"temperature", "°C", 28, 4⟩, ⟨"flow_rate", "m³/hr", 4500, 300⟩,
       ⟨"power_consumption", "MW", 3.2, 0.5⟩]
  | "Electrical" =>
      [⟨"voltage", "kV", 345, 5⟩, ⟨"current", "A", 1200, 80⟩,
       ⟨"power_output", "MW", 780, 30⟩, ⟨"temperature", "°C", 65, 8⟩]
  | "Pump" =>
      [⟨"pressure", "bar", 45, 3⟩, ⟨"flow_rate", "m³/hr", 800, 60⟩,
       ⟨"temperature", "°C", 55, 5⟩, ⟨"power_consumption", "MW", 2.8, 0.3⟩,
       ⟨"vibration", "mm/s", 1.8, 0.5⟩]
  | "Furnace" =>
      [⟨"temperature", "°C", 850, 30⟩, ⟨"pressure", "bar", 2.5, 0.3⟩,
       ⟨"fuel_flow", "m³/hr", 1200, 100⟩, ⟨"power_consumption", "MW", 15, 2⟩,
       ⟨"efficiency", "%", 88, 4⟩]
  | "Column" =>
      [⟨"temperature", "°C", 120, 10⟩, ⟨"pressure", "bar", 12, 1⟩,
       ⟨"flow_rate", "m³/hr", 350, 30⟩, ⟨"product_purity", "%", 99.2, 0.5⟩]
  | "Compressor" =>
      [⟨"pressure", "bar", 28, 3⟩, ⟨"temperature", "°C", 95, 8⟩,
       ⟨"power_consumption", "MW", 8.5, 1⟩, ⟨"vibration", "mm/s", 3.2, 1⟩,
       ⟨"flow_rate", "m³/hr", 2000, 150⟩]
  | "Reactor" =>
      [⟨"temperature", "°C", 280, 15⟩, ⟨"pressure", "bar", 45, 3⟩,
       ⟨"flow_rate", "m³/hr", 500, 40⟩, ⟨"conversion_rate", "%", 94, 2⟩]
  | "Heat Exchanger" =>
      [⟨"temperature", "°C", 180, 12⟩, ⟨"pressure", "bar", 15, 1.5⟩,
       ⟨"flow_rate", "m³/hr", 600, 50⟩, ⟨"efficiency", "%", 85, 5⟩]
  | _ => []

/-- The random source abstracted: the value the generator produces for a
given (asset id, metric name, base, noise, hoursElapsedInDayCycle) call.
Quantifying theorems over all such oracles covers every possible outcome of
the Gaussian jitter; the mathematical content of `_generate_value` itself is
verified separately over `ℝ` (see `generate_value`). -/
def ValueGen : Type := Nat → String → ℚ → ℚ → ℚ → ℚ

/-! ### Latest reading per (asset, metric) — the dashboard subquery

main.py lines 182–203: a subquery groups readings of the facility's assets
by (asset_id, metric_name) with `max(timestamp)`, and the outer query joins
`sensor_readings` against it on equal asset, metric and timestamp. -/

/-- The join/grouping key test: reading `r` belongs to pair `(a, m)`. -/
def pairSel (a : Nat) (m : String) (r : SensorReading) : Bool :=
  r.asset_id == a && r.metric_name == m

/-- All readings of one (asset, metric) pair, in table order. -/
def readingsFor (rs : List SensorReading) (a : Nat) (m : String) :
    List SensorReading :=
  rs.filter (pairSel a m)

/-- SQL `max(timestamp)` over a group; groups are nonempty by construction,
the `[]` value is never consulted. -/
def maxTs : List SensorReading → Int
  | [] => 0
  | [r] => r.timestamp
  | r :: r2 :: t => max r.timestamp (maxTs (r2 :: t))

/-- The `filter(SensorReading.asset_id.in_(asset_ids))` scope of the
grouping subquery. -/
def scopeReadings (rs : List SensorReading) (aids : List Nat) :
    List SensorReading :=
  rs.filter fun r => decide (r.asset_id ∈ aids)

/-- The joined result: every reading whose asset is in scope and whose
timestamp equals its pair's maximum.  Exactly the SQL join — a pair whose
maximum timestamp is shared by several readings contributes all of them. -/
def latestReadings (rs : List SensorReading) (aids : List Nat) :
    List SensorReading :=
  rs.filter fun r =>
    decide (r.asset_id ∈ aids) &&
      r.timestamp == maxTs (readingsFor (scopeReadings rs aids)
        r.asset_id r.metric_name)

/-! ### Metric rollups (main.py lines 205–223) -/

/-- Python `round(x, 2)`: scale by 100, round to an integer, scale back.
(The IEEE-754 half-to-even tie rule is idealised as `round`; no claim
depends on behaviour at half-integer ties.) -/
def round2 (x : ℚ) : ℚ := (round (x * 100) : ℤ) / 100

/-- Python `min(values)` over a nonempty list (the `[]` value is never
consulted: buckets are nonempty by construction). -/
def listMin : List ℚ → ℚ
  | [] => 0
  | [x] => x
  | x :: y :: t => min x (listMin (y :: t))

/-- Python `max(values)` over a nonempty list. -/
def listMax : List ℚ → ℚ
  | [] => 0
  | [x] => x
  | x :: y :: t => max x (listMax (y :: t))

/-- The bucket `metric_buckets[m]`: latest readings of metric `m`, in list
order (dict insertion appends, so bucket order is sublist order). -/
def groupFor (rs : List SensorReading) (m : String) : List SensorReading :=
  rs.filter fun r => r.metric_name == m

/-- `readings[0].unit` of a bucket. -/
def headUnit : List SensorReading → String
  | [] => ""
  | r :: _ => r.unit

/-- Lexicographic code-point comparison of character lists — the order
Python `sorted` uses on strings. -/
def charListLe : List Char → List Char → Bool
  | [], _ => true
  | _ :: _, [] => false
  | c :: cs, d :: ds =>
    if c.toNat < d.toNat then true
    else if d.toNat < c.toNat then false
    else charListLe cs ds

/-- String comparison for `sorted(metric_buckets.items())`. -/
def strLe (s t : String) : Bool := charListLe s.data t.data

/-- Insert into an ascending list, after existing `strLe`-smaller keys. -/
def insertStr (x : String) : List String → List String
  | [] => [x]
  | y :: ys => if strLe y x then y :: insertStr x ys else x :: y :: ys

/-- Python `sorted` on bucket keys (insertion sort; keys are distinct so
stability is irrelevant). -/
def sortStrings (l : List String) : List String := l.foldr insertStr []

/-- The `MetricSummary` response schema (schemas.py). -/
structure MetricSummary where
  metric_name : String
  unit : String
  total_value : ℚ
  avg_value : ℚ
  min_value : ℚ
  max_value : ℚ
  asset_count : Nat
deriving DecidableEq

/-- One rollup row of the loop at main.py lines 211–223. -/
def summarize (rs : List SensorReading) (m : String) : MetricSummary :=
  let values := (groupFor rs m).map (·.value)
  { metric_name := m
    unit := headUnit (groupFor rs m)
    total_value := round2 values.sum
    avg_value := round2 (values.sum / values.length)
    min_value := round2 (listMin values)
    max_value := round2 (listMax values)
    asset_count := values.length }

/-- The distinct metric names of the latest-reading set (the keys of
`metric_buckets`). -/
def metricNames (rs : List SensorReading) : List String :=
  (rs.map (·.metric_name)).dedup

/-- `metric_summaries` as built by main.py: one rollup per distinct metric
name, in ascending lexical order of name. -/
def metric_summaries (rs : List SensorReading) : List MetricSummary :=
  (sortStrings (metricNames rs)).map (summarize rs)

/-! ### Dashboard (main.py `get_dashboard`, lines 154–257) -/

/-- The `AssetStatus` response schema (schemas.py). -/
structure AssetStatus where
  asset_id : Nat
  asset_name : String
  asset_type : String
  status : String
  latest_readings : List SensorReading
deriving DecidableEq

/-- The `DashboardSummary` response schema.  `last_updated` (wall-clock
time of computation) is omitted: no claim mentions it and it carries no
information about the data. -/
structure DashboardSummary where
  facility : Facility
  metric_summaries : List MetricSummary
  asset_statuses : List AssetStatus
  total_assets : Nat
  assets_operational : Nat
  assets_warning : Nat
  assets_critical : Nat
  assets_offline : Nat
deriving DecidableEq

/-- The status tally of main.py lines 242–245: the dict seeds the four enum
keys at 0 and increments the key `a.status` for every asset; the response
reads back only the four seeded keys, so each reported count is the number
of assets whose status is exactly that string. -/
def statusCount (assets : List Asset) (s : String) : Nat :=
  assets.countP fun a => a.status == s

/-- `get_dashboard`: 404 if the facility id resolves to no facility; a
zero-valued summary if it has no assets; otherwise latest readings,
rollups, per-asset statuses, and the four status counts. -/
def get_dashboard (db : DB) (fid : Nat) : Except ApiError DashboardSummary :=
  match db.facilities.find? (fun f => f.id == fid) with
  | none => Except.error ApiError.notFound
  | some fac =>
    let assets := db.assets.filter fun a => a.facility_id == fid
    let aids := assets.map (·.id)
    if aids.isEmpty then
      Except.ok
        { facility := fac, metric_summaries := [], asset_statuses := []
          total_assets := 0, assets_operational := 0, assets_warning := 0
          assets_critical := 0, assets_offline := 0 }
    else
      let latest := latestReadings db.readings aids
      Except.ok
        { facility := fac
          metric_summaries := metric_summaries latest
          asset_statuses := assets.map fun a =>
            { asset_id := a.id, asset_name := a.name
              asset_type := a.asset_type, status := a.status
              latest_readings := latest.filter fun r => r.asset_id == a.id }
          total_assets := assets.length
          assets_operational := statusCount assets "operational"
          assets_warning := statusCount assets "warning"
          assets_critical := statusCount assets "critical"
          assets_offline := statusCount assets "offline" }

/-! ### Readings query (main.py `get_readings`, lines 305–339)

FastAPI validates `limit: int = Query(500, ge=1, le=5000)` before the
handler body runs and rejects out-of-range values with HTTP 422; the model
performs that check first.  The handler then chains the optional filters
conjunctively and returns `order_by(timestamp.desc()).limit(limit)`. -/

/-- The optional query parameters of `GET /api/readings`; `none` means the
parameter was not supplied (so `limit = none` takes the default 500). -/
structure ReadingsQuery where
  facility_id : Option Nat
  asset_id : Option Nat
  metric_name : Option String
  start_time : Option Int
  end_time : Option Int
  limit : Option Nat
deriving DecidableEq

/-- Insert into a descending-by-timestamp list, after earlier readings of
equal timestamp. -/
def insertByTsDesc (r : SensorReading) :
    List SensorReading → List SensorReading
  | [] => [r]
  | x :: xs =>
    if r.timestamp ≤ x.timestamp then x :: insertByTsDesc r xs
    else r :: x :: xs

/-- SQL `ORDER BY timestamp DESC` as a stable insertion sort. -/
def sortByTsDesc (rs : List SensorReading) : List SensorReading :=
  rs.foldl (fun acc r => insertByTsDesc r acc) []

/-- `get_readings`: limit validation, conjunctive optional filters,
descending timestamp order, truncation to `limit` rows. -/
def get_readings (db : DB) (q : ReadingsQuery) :
    Except ApiError (List SensorReading) :=
  let limit := q.limit.getD 500
  if limit < 1 || 5000 < limit then Except.error ApiError.invalidInput
  else
    let rs := db.readings
    let rs := match q.facility_id with
      | none => rs
      | some fid =>
        let aids := (db.assets.filter fun a => a.facility_id == fid).map (·.id)
        rs.filter fun r => decide (r.asset_id ∈ aids)
    let rs := match q.asset_id with
      | none => rs
      | some aid => rs.filter fun r => r.asset_id == aid
    let rs := match q.metric_name with
      | none => rs
      | some m => rs.filter fun r => r.metric_name == m
    let rs := match q.start_time with
      | none => rs
      | some s => rs.filter fun r => decide (s ≤ r.timestamp)
    let rs := match q.end_time with
      | none => rs
      | some e => rs.filter fun r => decide (r.timestamp ≤ e)
    Except.ok ((sortByTsDesc rs).take limit)

/-! ### Live ingestion tick (main.py `_generate_live_readings`, lines 58–83)

One loop iteration after the 30-second sleep: read the wall clock, compute
`hours = now.hour + now.minute / 60`, build one reading per (asset, metric
of its category) all stamped `now`, and commit them as one
`bulk_save_objects` batch. -/

/-- The fields of `datetime.utcnow()` the tick consults. -/
structure WallClock where
  hour : Nat
  minute : Nat
  second : Nat
deriving DecidableEq

/-- `now.hour + now.minute / 60` — the `hoursElapsedInDayCycle` argument the
tick passes to the value generator.  Note the `second` field is not read. -/
def tickHours (t : WallClock) : ℚ := t.hour + t.minute / 60

/-- Exact time-of-day in fractional hours since midnight (what the spec
says the tick passes). -/
def timeOfDayHours (t : WallClock) : ℚ :=
  t.hour + t.minute / 60 + t.second / 3600

/-- The batch of readings one tick builds: for every current asset, one
reading per metric of its category, value from the generator at
`tickHours clock`, timestamp `now`. -/
def liveTick (vg : ValueGen) (db : DB) (clock : WallClock) (now : Int) :
    List SensorReading :=
  db.assets.flatMap fun a =>
    (METRIC_PROFILES a.asset_type).map fun p =>
      { rid := 0, asset_id := a.id, metric_name := p.name
        value := vg a.id p.name p.base p.noise (tickHours clock)
        unit := p.unit, timestamp := now }

/-- `bulk_save_objects` + `commit`: the whole batch is appended atomically. -/
def liveTickDB (vg : ValueGen) (db : DB) (clock : WallClock) (now : Int) :
    DB :=
  { db with readings := db.readings ++ liveTick vg db clock now }

/-! ### Historical seed (init_db.py `seed_data`, lines 145–204)

Skipped when `db.query(Facility).count() > 0`; otherwise inserts the two
`FACILITIES` with their assets, plus readings every 5 minutes over the past
24 hours for every (asset, metric of its category).  Storage-assigned ids
are modelled as consecutive integers from 1, which is what `flush` yields
on the empty database the guard guarantees. -/

/-- One asset entry of the `FACILITIES` seed table. -/
structure AssetDef where
  name : String
  asset_type : String
  status : String
deriving DecidableEq

/-- One facility entry of the `FACILITIES` seed table. -/
structure FacilityDef where
  name : String
  location : String
  facility_type : String
  description : String
  assets : List AssetDef
deriving DecidableEq

/-- The `FACILITIES` constant of init_db.py. -/
def FACILITIES : List FacilityDef :=
  [{ name := "Riverside Power Station", location := "Houston, TX"
     facility_type := "Power Station"
     description := "Combined-cycle natural gas power station, 800 MW capacity"
     assets :=
       [⟨"Gas Turbine A", "Turbine", "operational"⟩,
        ⟨"Gas Turbine B", "Turbine", "operational"⟩,
        ⟨"Steam Turbine", "Turbine", "operational"⟩,
        ⟨"Heat Recovery Boiler", "Boiler", "operational"⟩,
        ⟨"Cooling Tower 1", "Cooling System", "operational"⟩,
        ⟨"Cooling Tower 2", "Cooling System", "warning"⟩,
        ⟨"Main Transformer", "Electrical", "operational"⟩,
        ⟨"Feedwater Pump", "Pump", "operational"⟩] },
   { name := "Northshore Chemical Plant", location := "Baton Rouge, LA"
     facility_type := "Chemical Plant"
     description := "Ethylene production facility, 500k tons/year capacity"
     assets :=
       [⟨"Cracking Furnace 1", "Furnace", "operational"⟩,
        ⟨"Cracking Furnace 2", "Furnace", "operational"⟩,
        ⟨"Distillation Column A", "Column", "operational"⟩,
        ⟨"Compressor Unit", "Compressor", "warning"⟩,
        ⟨"Reactor Vessel", "Reactor", "operational"⟩,
        ⟨"Heat Exchanger Bank", "Heat Exchanger", "operational"⟩] }]

/-- The facility rows the seed inserts (ids 1, 2 in definition order). -/
def seedFacilities : List Facility :=
  FACILITIES.enum.map fun p =>
    ⟨p.1 + 1, p.2.name, p.2.location, p.2.facility_type, p.2.description⟩

/-- The asset definitions paired with their owning facility id, in
insertion order. -/
def seedAssetDefs : List (Nat × AssetDef) :=
  FACILITIES.enum.flatMap fun p => p.2.assets.map fun a => (p.1 + 1, a)

/-- The asset rows the seed inserts (ids 1..14 in insertion order). -/
def seedAssets : List Asset :=
  seedAssetDefs.enum.map fun p =>
    ⟨p.1 + 1, p.2.1, p.2.2.name, p.2.2.asset_type, p.2.2.status⟩

/-- Iterations of the `while t <= now` loop: `t = now - 24h + 5min * i`
for `i = 0..288` (the 24-hour window is an exact multiple of the step). -/
def numSeedSteps : Nat := 289

/-- The bulk reading batch: per asset, per 5-minute step of the 24-hour
window, per metric of the asset's category, one reading with
`hoursElapsedInDayCycle = elapsed seconds since window start / 3600`. -/
def seedReadings (vg : ValueGen) (now : Int) : List SensorReading :=
  seedAssets.flatMap fun a =>
    (List.range numSeedSteps).flatMap fun i =>
      (METRIC_PROFILES a.asset_type).map fun p =>
        { rid := 0, asset_id := a.id, metric_name := p.name
          value := vg a.id p.name p.base p.noise ((300 * i : ℚ) / 3600)
          unit := p.unit, timestamp := now - 86400 + 300 * i }

/-- `seed_data` (also exposed as `runHistoricalSeedIfEmpty`): a no-op when
any facility row exists, else one transaction inserting facilities, assets
and the historical reading batch. -/
def seed_data (vg : ValueGen) (now : Int) (db : DB) : DB :=
  if db.facilities.length > 0 then db
  else
    { facilities := db.facilities ++ seedFacilities
      assets := db.assets ++ seedAssets
      readings := db.readings ++ seedReadings vg now }

/-! ### The value generator over `ℝ` (init_db.py `_generate_value`)

`drift = sin(2·π·t/24) · noise · 0.4`, `jitter ~ gauss(0, noise · 0.3)`,
result `round(base + drift + jitter, 2)`.  The sampled jitter is an
explicit argument `j`; floats are idealised as reals. -/

/-- `round(x, 2)` over `ℝ`. -/
noncomputable def round2R (x : ℝ) : ℝ := (round (x * 100) : ℤ) / 100

/-- The deterministic sinusoidal drift term. -/
noncomputable def driftR (noise t : ℝ) : ℝ :=
  Real.sin (2 * Real.pi * t / 24) * noise * 0.4

/-- `_generate_value(base, noise, t)` with jitter sample `j`. -/
noncomputable def generate_value (base noise t j : ℝ) : ℝ :=
  round2R (base + driftR noise t + j)

/-- Referential integrity, the data-model invariant the spec states for
every reachable storage state: every reading references a live asset and
every asset a live facility. -/
def Integrity (db : DB) : Prop :=
  (∀ r ∈ db.readings, ∃ a ∈ db.assets, a.id = r.asset_id) ∧
    (∀ a ∈ db.assets, ∃ f ∈ db.facilities, f.id = a.facility_id)

instance (db : DB) : Decidable (Integrity db) := by
  unfold Integrity; infer_instance

/-- Membership of an asset's status in the four-value enum the schema
comment documents (models.py line 55). -/
def statusInEnum (a : Asset) : Bool :=
  a.status == "operational" || a.status == "warning" ||
    a.status == "critical" || a.status == "offline"

/-- The latest readings the dashboard selects for one (asset, metric) pair:
the pair's slice of the joined latest-reading set. -/
def latestFor (rs : List SensorReading) (aids : List Nat) (a : Nat)
    (m : String) : List SensorReading :=
  readingsFor (latestReadings rs aids) a m

/-! ### Concrete fixtures used by witnesses and counterexamples -/

/-- A value oracle that always samples 0. -/
def vg0 : ValueGen := fun _ _ _ _ _ => 0

/-- A value oracle returning its `hoursElapsedInDayCycle` argument, used to
observe which cycle position a tick passes to the generator. -/
def vgArg : ValueGen := fun _ _ _ _ t => t

/-- A test facility mirroring the fixture of test_api.py. -/
def wFacility : Facility :=
  ⟨1, "Test Plant", "Test City", "Power Station", "A test facility"⟩

/-- Two readings of the same (asset, metric) pair sharing one timestamp. -/
def rTie1 : SensorReading := ⟨1, 1, "temperature", 540, "°C", 100⟩

/-- Second reading tied with `rTie1` on timestamp. -/
def rTie2 : SensorReading := ⟨2, 1, "temperature", 545, "°C", 100⟩

/-- A one-reading store for the readings-query fixtures. -/
def db2 : DB := ⟨[], [], [⟨1, 1, "temperature", 540, "°C", 7⟩]⟩

/-- A query whose end time (5) precedes its start time (10). -/
def q2 : ReadingsQuery := ⟨none, none, none, some 10, some 5, none⟩

/-- A seeded store: one facility, one asset, one reading, referentially
intact. -/
def db3 : DB :=
  ⟨[wFacility], [⟨1, 1, "Turbine 1", "Turbine", "operational"⟩],
   [⟨1, 1, "temperature", 540, "°C", 0⟩]⟩

/-- One facility with one three-metric asset, used to observe a tick. -/
def db4 : DB :=
  ⟨[wFacility], [⟨1, 1, "Cooling Tower 1", "Cooling System", "operational"⟩], []⟩

/-- Three readings with distinct timestamps for the limit fixture. -/
def db7 : DB :=
  ⟨[], [],
   [⟨1, 1, "temperature", 540, "°C", 1⟩, ⟨2, 1, "temperature", 545, "°C", 2⟩,
    ⟨3, 1, "temperature", 550, "°C", 3⟩]⟩

/-- A query requesting at most two readings. -/
def q7 : ReadingsQuery := ⟨none, none, none, none, none, some 2⟩

/-- An existing facility with an empty asset set. -/
def db8 : DB := ⟨[wFacility], [], []⟩

/-- Two assets with profile categories and nodup ids, no readings yet. -/
def db9 : DB :=
  ⟨[wFacility],
   [⟨1, 1, "Cooling Tower 1", "Cooling System", "operational"⟩,
    ⟨2, 1, "Mystery Box", "Mystery", "operational"⟩], []⟩

/-- Two assets, one carrying a status outside the four-value enum. -/
def db10 : DB :=
  ⟨[wFacility],
   [⟨1, 1, "Turbine 1", "Turbine", "operational"⟩,
    ⟨2, 1, "Turbine 2", "Turbine", "bogus"⟩], []⟩

/-- The dashboard `db10` yields: total 2 assets, one operational, and the
"bogus" asset in no status count. -/
def wd10 : DashboardSummary :=
  { facility := wFacility
    metric_summaries := []
    asset_statuses :=
      [⟨1, "Turbine 1", "Turbine", "operational", []⟩,
       ⟨2, "Turbine 2", "Turbine", "bogus", []⟩]
    total_assets := 2
    assets_operational := 1
    assets_warning := 0
    assets_critical := 0
    assets_offline := 0 }

/-! ## Helper lemmas: maximum timestamp of a group -/

theorem maxTs_le {r : SensorReading} :
    ∀ (l : List SensorReading), r ∈ l → r.timestamp ≤ maxTs l
  | [], h => absurd h (List.not_mem_nil r)
  | [x], h => by
      rcases List.mem_singleton.mp h with rfl
      simp [maxTs]
  | x :: y :: t, h => by
      rcases List.mem_cons.mp h with rfl | h2
      · exact le_max_left _ _
      · exact le_trans (maxTs_le (y :: t) h2) (le_max_right _ _)

theorem maxTs_mem :
    ∀ (l : List SensorReading), l ≠ [] → ∃ r ∈ l, r.timestamp = maxTs l
  | [], h => absurd rfl h
  | [x], _ => ⟨x, List.mem_singleton_self x, rfl⟩
  | x :: y :: t, _ => by
      rcases maxTs_mem (y :: t) (by simp) with ⟨r, hr, hts⟩
      by_cases hx : maxTs (y :: t) ≤ x.timestamp
      · exact ⟨x, List.mem_cons_self x _, by
          show x.timestamp = max x.timestamp (maxTs (y :: t))
          rw [max_eq_left hx]⟩
      · refine ⟨r, List.mem_cons_of_mem x hr, ?_⟩
        show r.timestamp = max x.timestamp (maxTs (y :: t))
        rw [max_eq_right (le_of_not_le hx), hts]

theorem filter_ts_length_le_one (l : List SensorReading) (c : Int)
    (h : l.Pairwise fun x y => x.timestamp ≠ y.timestamp) :
    (l.filter fun r => r.timestamp == c).length ≤ 1 := by
  induction l with
  | nil => simp
  | cons x t ih =>
    rcases List.pairwise_cons.mp h with ⟨hx, ht⟩
    by_cases hc : x.timestamp = c
    · have ht0 : (t.filter fun r => r.timestamp == c) = [] := by
        refine List.filter_eq_nil_iff.mpr fun y hy hyc => ?_
        exact hx y hy (by rw [hc, beq_iff_eq.mp hyc])
      simp [List.filter_cons, hc, ht0]
    · have hcb : (x.timestamp == c) = false := beq_eq_false_iff_ne.mpr hc
      simpa [List.filter_cons, hcb] using ih ht

/-- The pair slice of the joined latest-reading set is exactly the pair's
readings whose timestamp equals the pair's maximum. -/
theorem latestFor_eq (rs : List SensorReading) (aids : List Nat) (a : Nat)
    (m : String) (hca : a ∈ aids) :
    latestFor rs aids a m
      = (readingsFor (scopeReadings rs aids) a m).filter
          (fun r => r.timestamp ==
            maxTs (readingsFor (scopeReadings rs aids) a m)) := by
  unfold latestFor readingsFor latestReadings scopeReadings
  simp only [List.filter_filter]
  refine List.filter_congr fun r _ => ?_
  cases hpm : pairSel a m r with
  | false => simp [hpm]
  | true =>
    have hand := hpm
    simp only [pairSel, Bool.and_eq_true, beq_iff_eq] at hand
    rcases hand with ⟨ha, hm⟩
    simp [hpm, ha, hm, hca, readingsFor, List.filter_filter]

/-! ## Helper lemmas: the lexicographic string order of `sorted` -/

theorem charListLe_total :
    ∀ (l1 l2 : List Char), charListLe l1 l2 = true ∨ charListLe l2 l1 = true
  | [], [] => Or.inl rfl
  | [], _ :: _ => Or.inl rfl
  | _ :: _, [] => Or.inr rfl
  | c :: cs, d :: ds => by
      rcases Nat.lt_trichotomy c.toNat d.toNat with h | h | h
      · left; simp [charListLe, h]
      · rcases charListLe_total cs ds with ih | ih
        · left; simp [charListLe, h, ih]
        · right; simp [charListLe, h, ih]
      · right; simp [charListLe, h]

theorem charListLe_trans :
    ∀ (l1 l2 l3 : List Char), charListLe l1 l2 = true →
      charListLe l2 l3 = true → charListLe l1 l3 = true
  | [], _, _, _, _ => rfl
  | _ :: _, [], _, h12, _ => by simp [charListLe] at h12
  | _ :: _, _ :: _, [], _, h23 => by simp [charListLe] at h23
  | c :: cs, d :: ds, e :: es, h12, h23 => by
      simp only [charListLe] at h12 h23 ⊢
      by_cases h1 : c.toNat < d.toNat
      · by_cases h2 : d.toNat < e.toNat
        · simp [Nat.lt_trans h1 h2]
        · by_cases h3 : e.toNat < d.toNat
          · simp [h2, h3] at h23
          · have hde : d.toNat = e.toNat :=
              Nat.le_antisymm (Nat.not_lt.mp h3) (Nat.not_lt.mp h2)
            simp [hde ▸ h1]
      · by_cases h1' : d.toNat < c.toNat
        · simp [h1, h1'] at h12
        · have hcd : c.toNat = d.toNat :=
            Nat.le_antisymm (Nat.not_lt.mp h1') (Nat.not_lt.mp h1)
          simp only [h1, h1', if_false, if_neg] at h12
          by_cases h2 : d.toNat < e.toNat
          · simp [hcd ▸ h2]
          · by_cases h3 : e.toNat < d.toNat
            · simp [h2, h3] at h23
            · rw [if_neg h2, if_neg h3] at h23
              have hde : d.toNat = e.toNat :=
                Nat.le_antisymm (Nat.not_lt.mp h3) (Nat.not_lt.mp h2)
              have hce : ¬ c.toNat < e.toNat := by
                rw [hcd, hde]; exact Nat.lt_irrefl _
              have hec : ¬ e.toNat < c.toNat := by
                rw [hcd, hde]; exact Nat.lt_irrefl _
              rw [if_neg hce, if_neg hec]
              exact charListLe_trans cs ds es h12 h23

theorem strLe_total (s t : String) : strLe s t = true ∨ strLe t s = true :=
  charListLe_total s.data t.data

theorem strLe_trans {s t u : String} (h1 : strLe s t = true)
    (h2 : strLe t u = true) : strLe s u = true :=
  charListLe_trans s.data t.data u.data h1 h2

theorem mem_insertStr {z x : String} :
    ∀ (l : List String), z ∈ insertStr x l → z = x ∨ z ∈ l
  | [], h => Or.inl (List.mem_singleton.mp h)
  | y :: ys, h => by
      unfold insertStr at h
      by_cases hb : strLe y x = true
      · rw [if_pos hb] at h
        rcases List.mem_cons.mp h with rfl | h2
        · exact Or.inr (List.mem_cons_self _ _)
        · rcases mem_insertStr ys h2 with rfl | h3
          · exact Or.inl rfl
          · exact Or.inr (List.mem_cons_of_mem _ h3)
      · rw [if_neg hb] at h
        rcases List.mem_cons.mp h with rfl | h2
        · exact Or.inl rfl
        · exact Or.inr h2

theorem sorted_insertStr (x : String) :
    ∀ (l : List String), l.Pairwise (fun a b => strLe a b = true) →
      (insertStr x l).Pairwise (fun a b => strLe a b = true)
  | [], _ => by simp [insertStr]
  | y :: ys, h => by
      rcases List.pairwise_cons.mp h with ⟨hy, hys⟩
      unfold insertStr
      by_cases hb : strLe y x = true
      · rw [if_pos hb]
        refine List.pairwise_cons.mpr ⟨fun z hz => ?_, sorted_insertStr x ys hys⟩
        rcases mem_insertStr ys hz with rfl | h2
        · exact hb
        · exact hy z h2
      · rw [if_neg hb]
        have hxy : strLe x y = true := (strLe_total x y).resolve_right hb
        refine List.pairwise_cons.mpr ⟨fun z hz => ?_, h⟩
        rcases List.mem_cons.mp hz with rfl | h2
        · exact hxy
        · exact strLe_trans hxy (hy z h2)

theorem sortStrings_sorted (l : List String) :
    (sortStrings l).Pairwise (fun a b => strLe a b = true) := by
  induction l with
  | nil => simp [sortStrings]
  | cons a t ih => exact sorted_insertStr a (sortStrings t) ih

theorem insertStr_perm (x : String) :
    ∀ (l : List String), (insertStr x l).Perm (x :: l)
  | [] => List.Perm.refl _
  | y :: ys => by
      unfold insertStr
      by_cases hb : strLe y x = true
      · rw [if_pos hb]
        exact ((insertStr_perm x ys).cons y).trans (List.Perm.swap x y ys)
      · rw [if_neg hb]

theorem sortStrings_perm (l : List String) : (sortStrings l).Perm l := by
  induction l with
  | nil => exact List.Perm.refl _
  | cons a t ih => exact (insertStr_perm a (sortStrings t)).trans (ih.cons a)

/-! ## Helper lemmas: list minimum, maximum and sums -/

theorem listMin_le {x : ℚ} :
    ∀ (l : List ℚ), x ∈ l → listMin l ≤ x
  | [], h => absurd h (List.not_mem_nil x)
  | [v], h => by rcases List.mem_singleton.mp h with rfl; exact le_refl _
  | v :: w :: t, h => by
      rcases List.mem_cons.mp h with rfl | h2
      · exact min_le_left _ _
      · exact le_trans (min_le_right _ _) (listMin_le (w :: t) h2)

theorem le_listMax {x : ℚ} :
    ∀ (l : List ℚ), x ∈ l → x ≤ listMax l
  | [], h => absurd h (List.not_mem_nil x)
  | [v], h => by rcases List.mem_singleton.mp h with rfl; exact le_refl _
  | v :: w :: t, h => by
      rcases List.mem_cons.mp h with rfl | h2
      · exact le_max_left _ _
      · exact le_trans (le_listMax (w :: t) h2) (le_max_right _ _)

theorem length_mul_listMin_le_sum :
    ∀ (l : List ℚ), l ≠ [] → (l.length : ℚ) * listMin l ≤ l.sum
  | [], h => absurd rfl h
  | [x], _ => by simp [listMin]
  | x :: y :: t, _ => by
      have ih := length_mul_listMin_le_sum (y :: t) (by simp)
      have h1 : min x (listMin (y :: t)) ≤ x := min_le_left _ _
      have h2 : min x (listMin (y :: t)) ≤ listMin (y :: t) := min_le_right _ _
      have hn : (0 : ℚ) ≤ ((y :: t).length : ℚ) := by positivity
      have h3 := mul_le_mul_of_nonneg_left h2 hn
      show ((x :: y :: t).length : ℚ) * listMin (x :: y :: t) ≤ x + (y :: t).sum
      have hlen : ((x :: y :: t).length : ℚ) = ((y :: t).length : ℚ) + 1 := by
        push_cast [List.length_cons]; ring
      rw [hlen, show listMin (x :: y :: t) = min x (listMin (y :: t)) from rfl]
      linarith

theorem sum_le_length_mul_listMax :
    ∀ (l : List ℚ), l ≠ [] → l.sum ≤ (l.length : ℚ) * listMax l
  | [], h => absurd rfl h
  | [x], _ => by simp [listMax]
  | x :: y :: t, _ => by
      have ih := sum_le_length_mul_listMax (y :: t) (by simp)
      have h1 : x ≤ max x (listMax (y :: t)) := le_max_left _ _
      have h2 : listMax (y :: t) ≤ max x (listMax (y :: t)) := le_max_right _ _
      have hn : (0 : ℚ) ≤ ((y :: t).length : ℚ) := by positivity
      have h3 := mul_le_mul_of_nonneg_left h2 hn
      show x + (y :: t).sum ≤ ((x :: y :: t).length : ℚ) * listMax (x :: y :: t)
      have hlen : ((x :: y :: t).length : ℚ) = ((y :: t).length : ℚ) + 1 := by
        push_cast [List.length_cons]; ring
      rw [hlen, show listMax (x :: y :: t) = max x (listMax (y :: t)) from rfl]
      linarith

/-! ## Helper lemmas: two-decimal rounding -/

theorem round2_mono {x y : ℚ} (h : x ≤ y) : round2 x ≤ round2 y := by
  unfold round2
  have hr : round (x * 100) ≤ round (y * 100) := by
    rw [round_eq, round_eq]
    exact Int.floor_le_floor (by linarith)
  have hc : ((round (x * 100) : ℤ) : ℚ) ≤ ((round (y * 100) : ℤ) : ℚ) :=
    Int.cast_le.mpr hr
  gcongr

theorem abs_round2_sub (x : ℚ) : |round2 x - x| ≤ 1 / 200 := by
  unfold round2
  have h := abs_sub_round (x * 100)
  rw [abs_sub_comm] at h
  have heq : ((round (x * 100) : ℤ) : ℚ) / 100 - x
      = (((round (x * 100) : ℤ) : ℚ) - x * 100) / 100 := by ring
  rw [heq, abs_div]
  have h100 : |(100 : ℚ)| = 100 := by norm_num
  rw [h100]
  calc |((round (x * 100) : ℤ) : ℚ) - x * 100| / 100 ≤ (1 / 2) / 100 := by gcongr
    _ = 1 / 200 := by norm_num

/-! ## Claim C2 — time range with end before start -/

/-- C2 counterexample: with one reading in store and the range
start = 10, end = 5, `get_readings` answers with an (empty) result set —
it does not fail with an invalid-input error as the claim states. -/
theorem get_readings_end_before_start_not_rejected :
    get_readings db2 q2 = Except.ok [] ∧
      get_readings db2 q2 ≠ Except.error ApiError.invalidInput := by
  refine ⟨rfl, fun h => ?_⟩
  rw [show get_readings db2 q2 = Except.ok [] from rfl] at h
  exact Except.noConfusion h

/-- C2 (amended): when both bounds are supplied with the end time earlier
than the start time (and the limit is in range), `get_readings` does not
error: the conjunctive filters `timestamp ≥ start` and `timestamp ≤ end`
are jointly unsatisfiable, so the call succeeds with the empty result
set. -/
theorem get_readings_end_before_start (db : DB) (q : ReadingsQuery)
    (s e : Int) (hs : q.start_time = some s) (he : q.end_time = some e)
    (hlt : e < s) (hlo : 1 ≤ q.limit.getD 500) (hhi : q.limit.getD 500 ≤ 5000) :
    get_readings db q = Except.ok [] := by
  have h1 : ¬ q.limit.getD 500 < 1 := Nat.not_lt.mpr hlo
  have h2 : ¬ 5000 < q.limit.getD 500 := Nat.not_lt.mpr hhi
  have hnil : ∀ (l : List SensorReading),
      ((l.filter fun r => decide (s ≤ r.timestamp)).filter
        fun r => decide (r.timestamp ≤ e)) = [] := by
    intro l
    refine List.filter_eq_nil_iff.mpr fun r hr hre => ?_
    have hsr : s ≤ r.timestamp := of_decide_eq_true (List.mem_filter.mp hr).2
    have hrealt : r.timestamp ≤ e := of_decide_eq_true hre
    omega
  simp only [get_readings, hs, he, h1, h2, decide_False, Bool.false_or,
    decide_eq_true_eq, if_false, Bool.or_self]
  rw [hnil]
  simp [sortByTsDesc]

/-- C2 witness: the amended theorem applied to the concrete fixture. -/
theorem get_readings_end_before_start_witness :
    get_readings db2 q2 = Except.ok [] :=
  get_readings_end_before_start db2 q2 10 5 rfl rfl (by decide) (by decide)
    (by decide)

/-! ## Claim C7 — result cap validation -/

/-- C7: `get_readings` caps results at the requested limit: with no limit
the default 500 applies and at most 500 rows return; a supplied limit in
[1, 5000] caps the result at that many rows; a supplied limit outside
[1, 5000] is rejected as invalid input, never clamped. -/
theorem get_readings_limit_spec (db : DB) (q : ReadingsQuery) :
    (q.limit = none →
      ∃ l, get_readings db q = Except.ok l ∧ l.length ≤ 500) ∧
    (∀ k, q.limit = some k → 1 ≤ k → k ≤ 5000 →
      ∃ l, get_readings db q = Except.ok l ∧ l.length ≤ k) ∧
    (∀ k, q.limit = some k → (k < 1 ∨ 5000 < k) →
      get_readings db q = Except.error ApiError.invalidInput) := by
  refine ⟨?_, ?_, ?_⟩
  · intro hnone
    simp only [get_readings, hnone, Option.getD_none]
    refine ⟨_, rfl, ?_⟩
    rw [List.length_take]
    exact min_le_left _ _
  · intro k hk hlo hhi
    have h1 : ¬ k < 1 := Nat.not_lt.mpr hlo
    have h2 : ¬ 5000 < k := Nat.not_lt.mpr hhi
    simp only [get_readings, hk, Option.getD_some, h1, h2, decide_False,
      Bool.or_self, if_false]
    refine ⟨_, rfl, ?_⟩
    rw [List.length_take]
    exact min_le_left _ _
  · intro k hk hbad
    have hcond : (decide (k < 1) || decide (5000 < k)) = true := by
      rcases hbad with h | h <;> simp [h]
    simp only [get_readings, hk, Option.getD_some, hcond, if_true]

/-- C7 witness: requesting limit 2 over a three-reading store yields at
most two rows. -/
theorem get_readings_limit_witness :
    ∃ l, get_readings db7 q7 = Except.ok l ∧ l.length ≤ 2 :=
  (get_readings_limit_spec db7 q7).2.1 2 rfl (by decide) (by decide)

/-! ## Claim C8 — dashboard error behaviour -/

/-- C8: `get_dashboard` signals not-found exactly when no facility carries
the requested id; every error it can return is the not-found error (no
other error path exists); and an existing facility with an empty asset set
yields the zero-valued summary, not an error. -/
theorem get_dashboard_error_spec (db : DB) (fid : Nat) :
    (get_dashboard db fid = Except.error ApiError.notFound ↔
      ∀ f ∈ db.facilities, f.id ≠ fid) ∧
    (∀ e, get_dashboard db fid = Except.error e → e = ApiError.notFound) ∧
    (∀ fac, db.facilities.find? (fun f => f.id == fid) = some fac →
      db.assets.filter (fun a => a.facility_id == fid) = [] →
      get_dashboard db fid = Except.ok
        { facility := fac, metric_summaries := [], asset_statuses := []
          total_assets := 0, assets_operational := 0, assets_warning := 0
          assets_critical := 0, assets_offline := 0 }) := by
  cases hf : db.facilities.find? (fun f => f.id == fid) with
  | none =>
    have hnone : ∀ f ∈ db.facilities, f.id ≠ fid := by
      intro f hfm
      have := List.find?_eq_none.mp hf f hfm
      simpa using this
    refine ⟨?_, ?_, ?_⟩
    · simp only [get_dashboard, hf]
      exact ⟨fun _ => hnone, fun _ => trivial⟩
    · intro e he
      simp only [get_dashboard, hf] at he
      exact (Except.error.inj he).symm
    · intro fac hfac
      exact absurd hfac (by simp)
  | some fac0 =>
    have hmem := List.mem_of_find?_eq_some hf
    have hid : fac0.id = fid := by
      have := List.find?_some hf
      simpa using this
    have hok : ∀ e, get_dashboard db fid ≠ Except.error e := by
      intro e he
      simp only [get_dashboard, hf] at he
      by_cases hc :
          ((db.assets.filter fun a => a.facility_id == fid).map (·.id)).isEmpty
            = true
      · rw [if_pos hc] at he
        exact Except.noConfusion he
      · rw [if_neg hc] at he
        exact Except.noConfusion he
    refine ⟨?_, fun e he => absurd he (hok e), ?_⟩
    · constructor
      · intro h
        exact absurd h (hok _)
      · intro h
        exact absurd hid (h fac0 hmem)
    · intro fac hfac hempty
      have hfacs : fac0 = fac := Option.some.inj hfac
      simp only [get_dashboard, hf, hempty, hfacs, List.map_nil,
        List.isEmpty_nil, if_true]

/-- C8 witness: an existing facility (id 1) with no assets returns the
zero-valued summary. -/
theorem get_dashboard_error_witness :
    get_dashboard db8 1 = Except.ok
      { facility := wFacility, metric_summaries := [], asset_statuses := []
        total_assets := 0, assets_operational := 0, assets_warning := 0
        assets_critical := 0, assets_offline := 0 } :=
  (get_dashboard_error_spec db8 1).2.2 wFacility rfl rfl

/-! ## Claim C4 — cycle position passed by a live tick -/

/-- C4 counterexample: at wall-clock 12:30:45 the tick passes
`hour + minute / 60 = 12.5` to the generator, not the exact time-of-day
12.5125 the claim states; a tick over a three-metric asset with the
argument-observing oracle records 12.5 three times. -/
theorem tickHours_ignores_seconds :
    tickHours ⟨12, 30, 45⟩ ≠ timeOfDayHours ⟨12, 30, 45⟩ ∧
    tickHours ⟨12, 30, 45⟩ = 25 / 2 ∧
    timeOfDayHours ⟨12, 30, 45⟩ = 1001 / 80 ∧
    (liveTick vgArg db4 ⟨12, 30, 45⟩ 0).map (·.value)
      = [25 / 2, 25 / 2, 25 / 2] := by
  refine ⟨?_, ?_, ?_, ?_⟩
  · norm_num [tickHours, timeOfDayHours]
  · norm_num [tickHours]
  · norm_num [timeOfDayHours]
  · norm_num [liveTick, vgArg, METRIC_PROFILES, db4, tickHours]

/-- C4 (amended): the cycle position a tick passes to the generator is the
current time-of-day truncated to whole minutes — `hour + minute / 60`,
ignoring the seconds field (so 12:30:45 yields 12.5, not 12.5125).  It
still is a time-of-day quantity: it equals the exact time-of-day of the
same clock with seconds zeroed, differs from the exact time-of-day by
`second / 3600`, stays below 24 for a valid clock, and the tick output is
invariant under the seconds field. -/
theorem tickHours_spec (t : WallClock) (hh : t.hour < 24)
    (hm : t.minute < 60) :
    tickHours t = timeOfDayHours ⟨t.hour, t.minute, 0⟩ ∧
    timeOfDayHours t - tickHours t = (t.second : ℚ) / 3600 ∧
    tickHours t < 24 ∧
    (∀ vg db now, liveTick vg db t now
      = liveTick vg db ⟨t.hour, t.minute, 0⟩ now) := by
  refine ⟨?_, ?_, ?_, fun vg db now => rfl⟩
  · simp [tickHours, timeOfDayHours]
  · simp only [tickHours, timeOfDayHours]
    ring
  · have h1 : (t.hour : ℚ) ≤ 23 := by exact_mod_cast Nat.lt_succ_iff.mp hh
    have h2 : (t.minute : ℚ) ≤ 59 := by exact_mod_cast Nat.lt_succ_iff.mp hm
    have h3 : (t.minute : ℚ) / 60 ≤ 59 / 60 := by gcongr
    simp only [tickHours]
    linarith

/-- C4 witness: the amended theorem applied at wall-clock 12:30:45. -/
theorem tickHours_spec_witness :
    tickHours ⟨12, 30, 45⟩ = timeOfDayHours ⟨12, 30, 0⟩ ∧
    timeOfDayHours ⟨12, 30, 45⟩ - tickHours ⟨12, 30, 45⟩ = (45 : ℚ) / 3600 ∧
    tickHours ⟨12, 30, 45⟩ < 24 ∧
    (∀ vg db now, liveTick vg db ⟨12, 30, 45⟩ now
      = liveTick vg db ⟨12, 30, 0⟩ now) :=
  tickHours_spec ⟨12, 30, 45⟩ (by decide) (by decide)

/-! ## Claim C5 — the value generator formula -/

/-- C5: for every baseline, noise amplitude, cycle position and sampled
jitter, `_generate_value` returns
`round(base + sin(2·π·t/24) · noise · 0.4 + jitter, 2)`; the drift term is
exactly zero at `t = 0` and has period 24 hours.  The function is total —
no error condition. -/
theorem generate_value_spec (base noise t j : ℝ) :
    generate_value base noise t j
        = round2R (base + Real.sin (2 * Real.pi * t / 24) * noise * 0.4 + j) ∧
    driftR noise 0 = 0 ∧
    driftR noise (t + 24) = driftR noise t := by
  refine ⟨rfl, ?_, ?_⟩
  · simp [driftR]
  · unfold driftR
    have harg : 2 * Real.pi * (t + 24) / 24 = 2 * Real.pi * t / 24 + 2 * Real.pi := by
      ring
    rw [harg, Real.sin_add_two_pi]

/-! ## Claim C3 — idempotence of the historical seed -/

/-- C3: running `seed_data` twice changes nothing over running it once (in
particular the reading count is the same), and on a referentially intact
store that already holds any reading the seed is a no-op — the bulk
historical load only ever runs into an empty reading store.  (The guard
actually tests `countFacilities() > 0`; integrity makes a nonempty reading
store imply a nonempty facility table.) -/
theorem seed_data_idempotent (vg1 vg2 : ValueGen) (n1 n2 : Int) (db : DB)
    (hint : Integrity db) :
    seed_data vg2 n2 (seed_data vg1 n1 db) = seed_data vg1 n1 db ∧
    (seed_data vg2 n2 (seed_data vg1 n1 db)).readings.length
      = (seed_data vg1 n1 db).readings.length ∧
    (db.readings ≠ [] → seed_data vg1 n1 db = db) := by
  have hmain : seed_data vg2 n2 (seed_data vg1 n1 db) = seed_data vg1 n1 db := by
    by_cases h : db.facilities.length > 0
    · simp [seed_data, h]
    · have hinner : seed_data vg1 n1 db
          = { facilities := db.facilities ++ seedFacilities
              assets := db.assets ++ seedAssets
              readings := db.readings ++ seedReadings vg1 n1 } := by
        rw [seed_data, if_neg h]
      have hsf : seedFacilities.length = 2 := rfl
      rw [hinner, seed_data]
      split
      · rfl
      · next hneg =>
          exfalso
          apply hneg
          show (db.facilities ++ seedFacilities).length > 0
          rw [List.length_append, hsf]
          omega
  refine ⟨hmain, by rw [hmain], fun hr => ?_⟩
  rcases List.exists_mem_of_ne_nil db.readings hr with ⟨r, hrmem⟩
  rcases hint.1 r hrmem with ⟨a, hamem, _⟩
  rcases hint.2 a hamem with ⟨f, hfmem, _⟩
  have hpos : db.facilities.length > 0 :=
    List.length_pos.mpr (List.ne_nil_of_mem hfmem)
  rw [seed_data, if_pos hpos]

/-- C3 witness: on the intact nonempty store `db3`, the seed is a no-op. -/
theorem seed_data_idempotent_witness : seed_data vg0 0 db3 = db3 :=
  (seed_data_idempotent vg0 vg0 0 0 db3 (by decide)).2.2 (by decide)

/-! ## Claim C10 — status tally versus total assets -/

theorem statusIf_split (s : String) :
    ((if s == "operational" then 1 else 0) : Nat)
        + (if s == "warning" then 1 else 0)
        + (if s == "critical" then 1 else 0)
        + (if s == "offline" then 1 else 0)
      = if (s == "operational" || s == "warning" || s == "critical"
            || s == "offline") then 1 else 0 := by
  by_cases h1 : s = "operational"
  · subst h1; simp
  by_cases h2 : s = "warning"
  · subst h2; simp
  by_cases h3 : s = "critical"
  · subst h3; simp
  by_cases h4 : s = "offline"
  · subst h4; simp
  have e1 : (s == "operational") = false := beq_eq_false_iff_ne.mpr h1
  have e2 : (s == "warning") = false := beq_eq_false_iff_ne.mpr h2
  have e3 : (s == "critical") = false := beq_eq_false_iff_ne.mpr h3
  have e4 : (s == "offline") = false := beq_eq_false_iff_ne.mpr h4
  simp [e1, e2, e3, e4]

theorem statusCount_enum_split (assets : List Asset) :
    statusCount assets "operational" + statusCount assets "warning"
        + statusCount assets "critical" + statusCount assets "offline"
      = assets.countP statusInEnum := by
  induction assets with
  | nil => rfl
  | cons a t ih =>
    have hpt := statusIf_split a.status
    simp only [statusCount, List.countP_cons] at ih ⊢
    rw [show statusInEnum a
      = (a.status == "operational" || a.status == "warning"
          || a.status == "critical" || a.status == "offline") from rfl]
    omega

/-- C10: in every dashboard result, `total_assets` counts all assets of the
facility, while the four status counts tally only assets whose status is
literally one of the four enum strings; their sum equals the number of
enum-statused assets, is at most `total_assets`, and equals it exactly when
every asset's status lies in the enum — an asset with any other status
raises `total_assets` without entering any count. -/
theorem get_dashboard_status_counts (db : DB) (fid : Nat)
    (d : DashboardSummary) (h : get_dashboard db fid = Except.ok d) :
    d.total_assets = (db.assets.filter fun a => a.facility_id == fid).length ∧
    d.assets_operational + d.assets_warning + d.assets_critical
        + d.assets_offline
      = (db.assets.filter fun a => a.facility_id == fid).countP statusInEnum ∧
    d.assets_operational + d.assets_warning + d.assets_critical
        + d.assets_offline ≤ d.total_assets ∧
    (d.assets_operational + d.assets_warning + d.assets_critical
        + d.assets_offline = d.total_assets
      ↔ ∀ a ∈ db.assets.filter (fun a => a.facility_id == fid),
          statusInEnum a = true) := by
  cases hf : db.facilities.find? (fun f => f.id == fid) with
  | none =>
    simp only [get_dashboard, hf] at h
    exact absurd h (by simp)
  | some fac =>
    simp only [get_dashboard, hf] at h
    by_cases he :
        ((db.assets.filter fun a => a.facility_id == fid).map (·.id)).isEmpty
          = true
    · rw [if_pos he] at h
      have hd : d = _ := (Except.ok.inj h).symm
      have hempty : db.assets.filter (fun a => a.facility_id == fid) = [] :=
        List.map_eq_nil_iff.mp (List.isEmpty_iff.mp he)
      subst hd
      rw [hempty]
      exact ⟨rfl, rfl, le_refl _, by simp⟩
    · rw [if_neg he] at h
      have hd : d = _ := (Except.ok.inj h).symm
      subst hd
      refine ⟨rfl, statusCount_enum_split _, ?_, ?_⟩
      · calc statusCount (db.assets.filter fun a => a.facility_id == fid)
                "operational"
              + statusCount (db.assets.filter fun a => a.facility_id == fid)
                "warning"
              + statusCount (db.assets.filter fun a => a.facility_id == fid)
                "critical"
              + statusCount (db.assets.filter fun a => a.facility_id == fid)
                "offline"
            = (db.assets.filter fun a => a.facility_id == fid).countP
                statusInEnum := statusCount_enum_split _
          _ ≤ (db.assets.filter fun a => a.facility_id == fid).length :=
            List.countP_le_length _
      · constructor
        · intro hsum
          exact List.countP_eq_length.mp
            ((statusCount_enum_split _).symm.trans hsum)
        · intro hall
          exact (statusCount_enum_split _).trans
            (List.countP_eq_length.mpr hall)

/-- C10 witness: the theorem applied to `db10`, whose second asset carries
the out-of-enum status "bogus". -/
theorem get_dashboard_status_counts_witness :
    wd10.total_assets
        = (db10.assets.filter fun a => a.facility_id == 1).length ∧
    wd10.assets_operational + wd10.assets_warning + wd10.assets_critical
        + wd10.assets_offline
      = (db10.assets.filter fun a => a.facility_id == 1).countP statusInEnum ∧
    wd10.assets_operational + wd10.assets_warning + wd10.assets_critical
        + wd10.assets_offline ≤ wd10.total_assets ∧
    (wd10.assets_operational + wd10.assets_warning + wd10.assets_critical
        + wd10.assets_offline = wd10.total_assets
      ↔ ∀ a ∈ db10.assets.filter (fun a => a.facility_id == 1),
          statusInEnum a = true) :=
  get_dashboard_status_counts db10 1 wd10 (by rfl)

/-! ## Claim C9 — shape of one live ingestion tick -/

theorem flatMap_filter_eq_of_nodup {f : Asset → List SensorReading}
    (hf : ∀ b r, r ∈ f b → r.asset_id = b.id) :
    ∀ (assets : List Asset) (a : Asset), a ∈ assets →
      (assets.map (·.id)).Nodup →
      ((assets.flatMap f).filter fun r => r.asset_id == a.id) = f a := by
  intro assets
  induction assets with
  | nil => intro a h; cases h
  | cons b t ih =>
    intro a ha hnd
    have hnd2 : (∀ x ∈ t, ¬ x.id = b.id) ∧ (t.map (·.id)).Nodup := by
      simpa using hnd
    rcases hnd2 with ⟨hb, ht⟩
    simp only [List.flatMap_cons, List.filter_append]
    rcases List.mem_cons.mp ha with rfl | hat
    · have h1 : (f a).filter (fun r => r.asset_id == a.id) = f a :=
        List.filter_eq_self.mpr fun r hr => by simp [hf a r hr]
      have h2 : ((t.flatMap f).filter fun r => r.asset_id == a.id) = [] := by
        refine List.filter_eq_nil_iff.mpr fun r hr hbeq => ?_
        rcases List.mem_flatMap.mp hr with ⟨c, hc, hrc⟩
        have hcid : c.id = a.id := by
          rw [← hf c r hrc]; exact beq_iff_eq.mp hbeq
        exact hb c hc hcid
      rw [h1, h2, List.append_nil]
    · have h1 : ((f b).filter fun r => r.asset_id == a.id) = [] := by
        refine List.filter_eq_nil_iff.mpr fun r hr hbeq => ?_
        have hbid : b.id = a.id := by
          rw [← hf b r hr]; exact beq_iff_eq.mp hbeq
        exact hb a hat hbid.symm
      rw [h1, List.nil_append]
      exact ih a hat ht

/-- C9: one live tick at capture time `now` appends its whole output as one
batch; every reading of the batch is stamped `now`; and, when asset ids are
distinct, the batch's readings for each asset are exactly one per metric of
the asset's category in the signal model, in order — so an asset with two
defined metrics contributes exactly two readings. -/
theorem liveTick_spec (vg : ValueGen) (db : DB) (clock : WallClock)
    (now : Int) (hnd : (db.assets.map (·.id)).Nodup) :
    (∀ r ∈ liveTick vg db clock now, r.timestamp = now) ∧
    (liveTickDB vg db clock now).readings
      = db.readings ++ liveTick vg db clock now ∧
    (∀ a ∈ db.assets,
      ((liveTick vg db clock now).filter fun r => r.asset_id == a.id).map
          (·.metric_name)
        = (METRIC_PROFILES a.asset_type).map (·.name)) := by
  refine ⟨?_, rfl, ?_⟩
  · intro r hr
    rcases List.mem_flatMap.mp hr with ⟨b, _, hrb⟩
    rcases List.mem_map.mp hrb with ⟨p, _, rfl⟩
    rfl
  · intro a ha
    have hf : ∀ (b : Asset) (r : SensorReading),
        r ∈ (METRIC_PROFILES b.asset_type).map (fun p =>
          ({ rid := 0, asset_id := b.id, metric_name := p.name
             value := vg b.id p.name p.base p.noise (tickHours clock)
             unit := p.unit, timestamp := now } : SensorReading)) →
        r.asset_id = b.id := by
      intro b r hr
      rcases List.mem_map.mp hr with ⟨p, _, rfl⟩
      rfl
    rw [show liveTick vg db clock now = db.assets.flatMap _ from rfl,
      flatMap_filter_eq_of_nodup hf db.assets a ha hnd, List.map_map]
    rfl

/-- C9 witness: the theorem applied to `db9` (a three-metric asset and an
asset of a category absent from the signal model). -/
theorem liveTick_spec_witness :
    (∀ r ∈ liveTick vg0 db9 ⟨12, 0, 0⟩ 100, r.timestamp = 100) ∧
    (liveTickDB vg0 db9 ⟨12, 0, 0⟩ 100).readings
      = db9.readings ++ liveTick vg0 db9 ⟨12, 0, 0⟩ 100 ∧
    (∀ a ∈ db9.assets,
      ((liveTick vg0 db9 ⟨12, 0, 0⟩ 100).filter fun r =>
          r.asset_id == a.id).map (·.metric_name)
        = (METRIC_PROFILES a.asset_type).map (·.name)) :=
  liveTick_spec vg0 db9 ⟨12, 0, 0⟩ 100 (by decide)

/-! ## Claim C1 — latest reading per (asset, metric) -/

/-- C1 counterexample: two readings of the same (asset, metric) pair
sharing the maximum timestamp are both kept by the dashboard's join — the
latest-reading set holds two readings for the pair, not exactly one chosen
by a tie-break. -/
theorem latest_set_not_unique_on_tie :
    readingsFor (scopeReadings [rTie1, rTie2] [1]) 1 "temperature" ≠ [] ∧
    latestFor [rTie1, rTie2] [1] 1 "temperature" = [rTie1, rTie2] ∧
    (latestFor [rTie1, rTie2] [1] 1 "temperature").length ≠ 1 :=
  ⟨by decide, by decide, by decide⟩

/-- C1 (amended): for every (asset, metric) pair with at least one reading
among the facility's assets, the latest-reading set contains at least one
reading of the pair, and every selected reading's timestamp is greater
than or equal to every other reading timestamp of the pair; it contains
exactly one reading of the pair whenever the pair's readings carry
pairwise-distinct timestamps — when several readings share the maximum
timestamp the join returns all of them, with no tie-breaking rule. -/
theorem latestFor_spec (rs : List SensorReading) (aids : List Nat) (a : Nat)
    (m : String) (hne : readingsFor (scopeReadings rs aids) a m ≠ []) :
    latestFor rs aids a m ≠ [] ∧
    (∀ r ∈ latestFor rs aids a m,
      ∀ r2 ∈ readingsFor (scopeReadings rs aids) a m,
        r2.timestamp ≤ r.timestamp) ∧
    ((readingsFor (scopeReadings rs aids) a m).Pairwise
        (fun x y => x.timestamp ≠ y.timestamp) →
      (latestFor rs aids a m).length = 1) := by
  rcases List.exists_mem_of_ne_nil _ hne with ⟨r0, hr0⟩
  have hr0f := List.mem_filter.mp hr0
  have hpm : r0.asset_id = a ∧ r0.metric_name = m := by
    have h := hr0f.2
    simpa [pairSel, Bool.and_eq_true, beq_iff_eq] using h
  have hsc := List.mem_filter.mp hr0f.1
  have hca : a ∈ aids := by
    have hd := of_decide_eq_true hsc.2
    rwa [hpm.1] at hd
  rw [latestFor_eq rs aids a m hca]
  refine ⟨?_, ?_, ?_⟩
  · rcases maxTs_mem _ hne with ⟨rm, hrm, hts⟩
    exact List.ne_nil_of_mem (List.mem_filter.mpr ⟨hrm, by simp [hts]⟩)
  · intro r hr r2 h2
    have hr' := List.mem_filter.mp hr
    have hmax : r.timestamp
        = maxTs (readingsFor (scopeReadings rs aids) a m) := by
      simpa using hr'.2
    rw [hmax]
    exact maxTs_le _ h2
  · intro hpw
    have hle := filter_ts_length_le_one _
      (maxTs (readingsFor (scopeReadings rs aids) a m)) hpw
    rcases maxTs_mem _ hne with ⟨rm, hrm, hts⟩
    have hmem : rm ∈ (readingsFor (scopeReadings rs aids) a m).filter
        (fun r => r.timestamp
          == maxTs (readingsFor (scopeReadings rs aids) a m)) :=
      List.mem_filter.mpr ⟨hrm, by simp [hts]⟩
    have hge := List.length_pos.mpr (List.ne_nil_of_mem hmem)
    omega

/-- C1 witness: the amended theorem applied to the tied fixture. -/
theorem latestFor_spec_witness :
    latestFor [rTie1, rTie2] [1] 1 "temperature" ≠ [] ∧
    (∀ r ∈ latestFor [rTie1, rTie2] [1] 1 "temperature",
      ∀ r2 ∈ readingsFor (scopeReadings [rTie1, rTie2] [1]) 1 "temperature",
        r2.timestamp ≤ r.timestamp) ∧
    ((readingsFor (scopeReadings [rTie1, rTie2] [1]) 1
        "temperature").Pairwise (fun x y => x.timestamp ≠ y.timestamp) →
      (latestFor [rTie1, rTie2] [1] 1 "temperature").length = 1) :=
  latestFor_spec [rTie1, rTie2] [1] 1 "temperature" (by decide)

/-! ## Claim C6 — metric rollups -/

/-- C6: the metric rollups of a latest-reading set appear in ascending
lexical order of metric name with no duplicate names; each rollup covers a
nonempty group and carries the unit of one of the group's readings, the
group size as `asset_count`, the group's sum and average rounded to two
decimals after full-precision summation; the rounded minimum, average and
maximum are ordered `min ≤ avg ≤ max`; and `sum` equals `avg · count`
within the rounding tolerance `(count + 1) / 200`. -/
theorem metric_summaries_spec (rs : List SensorReading) :
    ((metric_summaries rs).map (·.metric_name)).Pairwise
        (fun a b => strLe a b = true) ∧
    ((metric_summaries rs).map (·.metric_name)).Nodup ∧
    (∀ s ∈ metric_summaries rs,
      groupFor rs s.metric_name ≠ [] ∧
      s.unit ∈ (groupFor rs s.metric_name).map (·.unit) ∧
      s.asset_count = (groupFor rs s.metric_name).length ∧
      s.total_value
        = round2 ((groupFor rs s.metric_name).map (·.value)).sum ∧
      s.avg_value
        = round2 (((groupFor rs s.metric_name).map (·.value)).sum
            / ((groupFor rs s.metric_name).length : ℚ)) ∧
      s.min_value ≤ s.avg_value ∧
      s.avg_value ≤ s.max_value ∧
      |s.total_value - s.avg_value * (s.asset_count : ℚ)|
        ≤ ((s.asset_count : ℚ) + 1) / 200) := by
  have hnames : (metric_summaries rs).map (·.metric_name)
      = sortStrings (metricNames rs) := by
    unfold metric_summaries
    rw [List.map_map]
    have hcongr : ∀ x ∈ sortStrings (metricNames rs),
        ((fun s => s.metric_name) ∘ summarize rs) x = id x := fun x _ => rfl
    rw [List.map_congr_left hcongr, List.map_id]
  refine ⟨?_, ?_, ?_⟩
  · rw [hnames]; exact sortStrings_sorted _
  · rw [hnames]
    exact ((sortStrings_perm (metricNames rs)).symm).nodup
      (List.nodup_dedup _)
  · intro s hs
    rcases List.mem_map.mp hs with ⟨m, hm, rfl⟩
    have hname : (summarize rs m).metric_name = m := rfl
    rw [hname]
    have hmem : m ∈ metricNames rs :=
      ((sortStrings_perm (metricNames rs)).mem_iff).mp hm
    rcases List.mem_map.mp (List.mem_dedup.mp hmem) with ⟨r0, hr0, hr0m⟩
    have hgne : groupFor rs m ≠ [] :=
      List.ne_nil_of_mem (List.mem_filter.mpr ⟨hr0, by simp [hr0m]⟩)
    have hvne : (groupFor rs m).map (·.value) ≠ [] := by
      intro hcon; exact hgne (List.map_eq_nil_iff.mp hcon)
    have hlen0 : 0 < ((groupFor rs m).map (·.value)).length :=
      List.length_pos.mpr hvne
    have hlenq : (0 : ℚ) < (((groupFor rs m).map (·.value)).length : ℚ) := by
      exact_mod_cast hlen0
    have hglen : ((groupFor rs m).map (·.value)).length
        = (groupFor rs m).length := List.length_map _ _
    have hminle : listMin ((groupFor rs m).map (·.value))
        ≤ ((groupFor rs m).map (·.value)).sum
          / ((((groupFor rs m).map (·.value)).length : ℚ)) := by
      rw [le_div_iff₀ hlenq, mul_comm]
      exact length_mul_listMin_le_sum _ hvne
    have hmaxge : ((groupFor rs m).map (·.value)).sum
          / ((((groupFor rs m).map (·.value)).length : ℚ))
        ≤ listMax ((groupFor rs m).map (·.value)) := by
      rw [div_le_iff₀ hlenq, mul_comm]
      exact sum_le_length_mul_listMax _ hvne
    refine ⟨hgne, ?_, ?_, rfl, ?_, ?_, ?_, ?_⟩
    · show headUnit (groupFor rs m) ∈ (groupFor rs m).map (·.unit)
      cases hgg : groupFor rs m with
      | nil => exact absurd hgg hgne
      | cons r t => simp [headUnit]
    · show ((groupFor rs m).map (·.value)).length = (groupFor rs m).length
      exact hglen
    · rw [← hglen]; rfl
    · exact round2_mono hminle
    · exact round2_mono hmaxge
    · show |round2 ((groupFor rs m).map (·.value)).sum
          - round2 (((groupFor rs m).map (·.value)).sum
              / ((((groupFor rs m).map (·.value)).length : ℚ)))
            * ((((groupFor rs m).map (·.value)).length : ℚ))|
        ≤ (((((groupFor rs m).map (·.value)).length : ℚ)) + 1) / 200
      set S := ((groupFor rs m).map (·.value)).sum with hS
      set n : ℚ := (((groupFor rs m).map (·.value)).length : ℚ) with hn
      have h1 := abs_round2_sub S
      have h2 : |S / n - round2 (S / n)| ≤ 1 / 200 := by
        rw [abs_sub_comm]; exact abs_round2_sub (S / n)
      have hSn : S / n * n = S := div_mul_cancel₀ S (ne_of_gt hlenq)
      have hsplit : round2 S - round2 (S / n) * n
          = (round2 S - S) + (S / n - round2 (S / n)) * n := by
        rw [sub_mul, hSn]; ring
      calc |round2 S - round2 (S / n) * n|
          = |(round2 S - S) + (S / n - round2 (S / n)) * n| := by rw [hsplit]
        _ ≤ |round2 S - S| + |(S / n - round2 (S / n)) * n| := abs_add _ _
        _ = |round2 S - S| + |S / n - round2 (S / n)| * n := by
            rw [abs_mul, abs_of_nonneg (le_of_lt hlenq)]
        _ ≤ 1 / 200 + (1 / 200) * n := by
            have h3 := mul_le_mul_of_nonneg_right h2 (le_of_lt hlenq)
            linarith
        _ = (n + 1) / 200 := by ring

/-- C6 witness: the per-rollup conjunction of the theorem instantiated at
the one rollup a singleton latest set produces, its membership hypothesis
discharged concretely. -/
theorem metric_summaries_spec_witness :
    groupFor [rTie1] (summarize [rTie1] "temperature").metric_name ≠ [] ∧
    (summarize [rTie1] "temperature").unit
      ∈ (groupFor [rTie1]
          (summarize [rTie1] "temperature").metric_name).map (·.unit) ∧
    (summarize [rTie1] "temperature").asset_count
      = (groupFor [rTie1]
          (summarize [rTie1] "temperature").metric_name).length ∧
    (summarize [rTie1] "temperature").total_value
      = round2 ((groupFor [rTie1]
          (summarize [rTie1] "temperature").metric_name).map (·.value)).sum ∧
    (summarize [rTie1] "temperature").avg_value
      = round2 (((groupFor [rTie1]
            (summarize [rTie1] "temperature").metric_name).map (·.value)).sum
          / ((groupFor [rTie1]
              (summarize [rTie1] "temperature").metric_name).length : ℚ)) ∧
    (summarize [rTie1] "temperature").min_value
      ≤ (summarize [rTie1] "temperature").avg_value ∧
    (summarize [rTie1] "temperature").avg_value
      ≤ (summarize [rTie1] "temperature").max_value ∧
    |(summarize [rTie1] "temperature").total_value
        - (summarize [rTie1] "temperature").avg_value
          * ((summarize [rTie1] "temperature").asset_count : ℚ)|
      ≤ (((summarize [rTie1] "temperature").asset_count : ℚ) + 1) / 200 :=
  (metric_summaries_spec [rTie1]).2.2 (summarize [rTie1] "temperature")
    (by rw [show metric_summaries [rTie1]
          = [summarize [rTie1] "temperature"] from rfl]
        exact List.mem_singleton_self _)

end PlantMonitor
